import Mathlib

/-!
# prometer: the polling and metric-projection loop

A shallow embedding of `main.go` and `internal/metrics/metrics.go`.

* The Prometheus gauge vectors of `metrics.go` are finite maps from label values to the
  last sample set; they are modelled as total functions into `Option`, `none` meaning that
  the label combination has never been set.
* The `float64` payloads copied from the API responses (watts, consumption, cost) are never
  computed on, so they range over an arbitrary type `F`.
* `time.Time`, `time.Unix` and `time.Since` follow the Go standard library on integers:
  `int64` seconds that wrap, durations that saturate.
* A computed `float64` is the rational number it stands for: `float64` rounds a rational to
  the nearest number with a 53-bit significand, ties to even, and `Duration.Seconds`
  performs the two conversions, the division and the addition of the Go source with that
  rounding after each.  The delay gauges therefore hold the very numbers the program stores.
* The wall clock read by `time.Since` is an explicit parameter `now`.
-/

namespace Prometer

/-! ## The part of package `time` that the program uses -/

namespace time

/-- Go `time.Duration`: a signed 64-bit count of nanoseconds. -/
abbrev Duration := Int

/-- Go `time.Second`. -/
def Second : Duration := 1000000000

/-- Go `minDuration`, the least `int64`. -/
def minDuration : Duration := -(2 ^ 63)

/-- Go `maxDuration`, the greatest `int64`. -/
def maxDuration : Duration := 2 ^ 63 - 1

/-- Two-complement wrap of an integer to `int64`. -/
def wrapInt64 (x : Int) : Int := (x + 2 ^ 63) % 2 ^ 64 - 2 ^ 63

/-- Go `unixToInternal`: seconds from January 1 of year 1 to the Unix epoch. -/
def unixToInternal : Int := 62135596800

/-- Go `time.Time` without a monotonic reading: `sec` counts seconds since January 1 of
year 1 and `nsec` is the nanosecond within that second. -/
structure Time where
  sec : Int
  nsec : Int
  deriving DecidableEq

/-- Go `time.Unix(sec, 0)`: `Time{0, sec + unixToInternal, Local}` in `int64` arithmetic. -/
def Unix (sec : Int) : Time := ⟨wrapInt64 (sec + unixToInternal), 0⟩

/-- Go `Time.Sub` for times without monotonic readings: the difference `t - u`, and
`maxDuration` or `minDuration` when it is out of the range of a `Duration`. -/
def Time.Sub (t u : Time) : Duration :=
  let d := (t.sec - u.sec) * Second + (t.nsec - u.nsec)
  if d < minDuration then minDuration
  else if maxDuration < d then maxDuration
  else d

/-- Go `Time.Before`: whether the instant `t` is before `u`. -/
def Time.Before (t u : Time) : Bool :=
  decide (t.sec < u.sec) || (decide (t.sec = u.sec) && decide (t.nsec < u.nsec))

/-- Go `time.Since(t)`, that is `time.Now().Sub(t)`, with the clock reading `now`. -/
def Since (now t : Time) : Duration := now.Sub t

/-- The integer nearest to `x`, the even one of the two when `x` is half way. -/
def roundHalfEven (x : ℚ) : Int :=
  let f := ⌊x⌋
  if x - f < 1 / 2 then f
  else if 1 / 2 < x - f then f + 1
  else if f % 2 = 0 then f
  else f + 1

/-- The `float64` nearest to the rational `x` (IEEE 754 binary64, round to nearest, ties to
even), as a rational: the significand has 53 bits and the exponent of the last place is
not below that of the subnormal numbers.  Overflow to infinity is not represented; the
arguments met here stay below `2 ^ 34` in absolute value. -/
def float64 (x : ℚ) : ℚ :=
  if x = 0 then 0
  else
    let e := max (Int.log 2 |x|) (-1022) - 52
    (roundHalfEven (x / 2 ^ e) : ℚ) * 2 ^ e

/-- Go `Duration.Seconds`: `sec := d / Second; nsec := d % Second` with the truncated
division of Go, then `float64(sec) + float64(nsec)/1e9` in `float64` arithmetic. -/
def Duration.Seconds (d : Duration) : ℚ :=
  let sec := Int.tdiv d Second
  let nsec := Int.tmod d Second
  float64 (float64 (sec : ℚ) + float64 (float64 (nsec : ℚ) / 1000000000))

end time

/-! ## `internal/metrics/metrics.go` -/

namespace metrics

/-- Go `type Utility string`. -/
abbrev Utility := String

def Electricity : Utility := "electricity"
def Gas : Utility := "gas"

/-- Go `type Duration string`. -/
abbrev Duration := String

def Day : Duration := "day"
def Week : Duration := "week"
def Month : Duration := "month"

/-- The five gauge vectors of the package, each a map from its label values to the last
sample set on that child.  `liveUsage` is `live_watts`, `meterReading` is `meter_reading`,
`meterReadingDelay` is `meter_reading_delay_seconds`, `cost` is `current_cost_pence` and
`costDelay` is `current_cost_delay_seconds`. -/
structure Registry (F : Type) where
  liveUsage : String → Option F
  meterReading : String → Option F
  meterReadingDelay : String → Option ℚ
  cost : String × String → Option F
  costDelay : String → Option ℚ

/-- The registry at process start: no child has a sample. -/
def Registry.empty {F : Type} : Registry F :=
  ⟨fun _ => none, fun _ => none, fun _ => none, fun _ => none, fun _ => none⟩

/-- The call `vec.WithLabelValues(lvs...).Set(v)`: the child at `lvs` takes the sample `v`. -/
def gaugeSet {K V : Type} [DecidableEq K] (vec : K → Option V) (lvs : K) (v : V) :
    K → Option V :=
  fun k => if k = lvs then some v else vec k

def LiveUsage {F : Type} (utility : Utility) (valueWatts : F) (r : Registry F) : Registry F :=
  { r with liveUsage := gaugeSet r.liveUsage utility valueWatts }

def MeterReading {F : Type} (now : time.Time) (utility : Utility) (valueWatts : F)
    (readingTime : time.Time) (r : Registry F) : Registry F :=
  let r1 := { r with meterReading := gaugeSet r.meterReading utility valueWatts }
  { r1 with meterReadingDelay :=
      gaugeSet r1.meterReadingDelay utility (time.Duration.Seconds (time.Since now readingTime)) }

def Cost {F : Type} (utility : Utility) (chargePeriod : Duration) (pricePence : F)
    (r : Registry F) : Registry F :=
  { r with cost := gaugeSet r.cost (utility, chargePeriod) pricePence }

def CostDelay {F : Type} (now : time.Time) (utility : Utility) (readingTime : time.Time)
    (r : Registry F) : Registry F :=
  { r with costDelay :=
      gaugeSet r.costDelay utility (time.Duration.Seconds (time.Since now readingTime)) }

end metrics

/-! ## `main.go` -/

def powerTypeElectricity : String := "ELECTRICITY"
def powerTypeGas : String := "GAS_ENERGY"

def durationDay : String := "DAY"
def durationWeek : String := "WEEK"
def durationMonth : String := "MONTH"

/-- An element of `LiveData.Power` of the API client: the fields that `main.go` reads. -/
structure PowerReading (F : Type) where
  Type_ : String
  Watts : F

/-- The response of `geo.GetLiveMeterData`: the fields that `main.go` reads. -/
structure LiveData (F : Type) where
  Power : List (PowerReading F)

/-- An element of `PeriodicData.TotalConsumptionList`; `ReadingTime` is an `int64`. -/
structure ConsumptionRecord (F : Type) where
  CommodityType : String
  ReadingTime : Int
  TotalConsumption : F
  ValueAvailable : Bool

/-- An element of `PeriodicData.CurrentCostsElec` and `PeriodicData.CurrentCostsGas`. -/
structure CostEntry (F : Type) where
  Duration : String
  CostAmount : F

/-- The response of `geo.GetPeriodicMeterData`: the fields that `main.go` reads. -/
structure PeriodicData (F : Type) where
  TotalConsumptionList : List (ConsumptionRecord F)
  CurrentCostsElec : List (CostEntry F)
  CurrentCostsElecTimestamp : Int
  CurrentCostsGas : List (CostEntry F)
  CurrentCostsGasTimestamp : Int

/-- Body of the `for ... range liveData.Power` loop of `setLiveReadings`. -/
def liveStep {F : Type} (r : metrics.Registry F) (power : PowerReading F) : metrics.Registry F :=
  if power.Type_ = powerTypeElectricity then
    metrics.LiveUsage metrics.Electricity power.Watts r
  else if power.Type_ = powerTypeGas then
    metrics.LiveUsage metrics.Gas power.Watts r
  else r

/-- Go `setLiveReadings`, with the outcome of `geo.GetLiveMeterData` as the argument
`fetch`.  The result is the registry afterwards and the returned error (`none` is `nil`). -/
def setLiveReadings {F : Type} (fetch : Except String (LiveData F)) (r : metrics.Registry F) :
    metrics.Registry F × Option String :=
  match fetch with
  | .error err => (r, some ("getting live data: " ++ err))
  | .ok liveData => (liveData.Power.foldl liveStep r, none)

/-- Body of the `for ... range periodicData.TotalConsumptionList` loop. -/
def consumptionStep {F : Type} (now : time.Time) (r : metrics.Registry F)
    (power : ConsumptionRecord F) : metrics.Registry F :=
  if !power.ValueAvailable then r
  else if power.CommodityType = powerTypeElectricity then
    metrics.MeterReading now metrics.Electricity power.TotalConsumption
      (time.Unix power.ReadingTime) r
  else if power.CommodityType = powerTypeGas then
    metrics.MeterReading now metrics.Gas power.TotalConsumption (time.Unix power.ReadingTime) r
  else r

/-- Body of the `for ... range periodicData.CurrentCostsElec` loop. -/
def costStepElec {F : Type} (r : metrics.Registry F) (c : CostEntry F) : metrics.Registry F :=
  if c.Duration = durationDay then metrics.Cost metrics.Electricity metrics.Day c.CostAmount r
  else if c.Duration = durationWeek then
    metrics.Cost metrics.Electricity metrics.Week c.CostAmount r
  else if c.Duration = durationMonth then
    metrics.Cost metrics.Electricity metrics.Month c.CostAmount r
  else r

/-- Body of the `for ... range periodicData.CurrentCostsGas` loop. -/
def costStepGas {F : Type} (r : metrics.Registry F) (c : CostEntry F) : metrics.Registry F :=
  if c.Duration = durationDay then metrics.Cost metrics.Gas metrics.Day c.CostAmount r
  else if c.Duration = durationWeek then metrics.Cost metrics.Gas metrics.Week c.CostAmount r
  else if c.Duration = durationMonth then metrics.Cost metrics.Gas metrics.Month c.CostAmount r
  else r

/-- Go `setPeriodicData`, with the clock reading `now` and the outcome of
`geo.GetPeriodicMeterData` as the argument `fetch`.  Both `metrics.CostDelay` calls pass
`metrics.Electricity`, as the source does. -/
def setPeriodicData {F : Type} (now : time.Time) (fetch : Except String (PeriodicData F))
    (r : metrics.Registry F) : metrics.Registry F × Option String :=
  match fetch with
  | .error err => (r, some ("getting data: " ++ err))
  | .ok periodicData =>
    let r1 := periodicData.TotalConsumptionList.foldl (consumptionStep now) r
    let r2 := periodicData.CurrentCostsElec.foldl costStepElec r1
    let r3 := metrics.CostDelay now metrics.Electricity
      (time.Unix periodicData.CurrentCostsElecTimestamp) r2
    let r4 := periodicData.CurrentCostsGas.foldl costStepGas r3
    let r5 := metrics.CostDelay now metrics.Electricity
      (time.Unix periodicData.CurrentCostsGasTimestamp) r4
    (r5, none)

/-- What one iteration of the `for` loop of `pollReadings` leaves behind: the registry and
the messages passed to `logger.Error`, oldest first. -/
structure PollState (F : Type) where
  registry : metrics.Registry F
  errors : List String

/-- The inputs of one iteration: the clock reading and the outcomes of the two fetches. -/
structure Cycle (F : Type) where
  now : time.Time
  live : Except String (LiveData F)
  periodicData : Except String (PeriodicData F)

/-- One iteration of the `for` loop of `pollReadings`, up to the wait on the ticker. -/
def pollIteration {F : Type} (s : PollState F) (c : Cycle F) : PollState F :=
  let (r1, err) := setLiveReadings c.live s.registry
  let errors1 := match err with
    | some e => s.errors ++ [e]
    | none => s.errors
  let (r2, err2) := setPeriodicData c.now c.periodicData r1
  let errors2 := match err2 with
    | some e => errors1 ++ [e]
    | none => errors1
  ⟨r2, errors2⟩

/-- The constant `pollInterval` declared inside `pollReadings`. -/
def pollInterval : time.Duration := 10 * time.Second

/-- A run of the poller: the period of the ticker it created with `time.Tick`, and the
state after the iterations run so far. -/
structure PollRun (F : Type) where
  tick : time.Duration
  state : PollState F

/-- Go `pollReadings(logger, accessToken, geoSystemID)`, observed after the iterations
whose inputs are listed in `cycles`.  The loop itself never ends. -/
def pollReadings {F : Type} (_accessToken _geoSystemID : String) (cycles : List (Cycle F))
    (r : metrics.Registry F) : PollRun F :=
  ⟨pollInterval, cycles.foldl pollIteration ⟨r, []⟩⟩

/-- Go `type config struct`.  `PollInterval` is read from the environment variable
`POLL_INTERNVAL` and has `envDefault:"10s"`. -/
structure config where
  User : String
  Pass : String
  PollInterval : time.Duration

/-- The `envDefault` of `config.PollInterval`. -/
def defaultPollInterval : time.Duration := 10 * time.Second

/-- An element of `DeviceData.SystemDetails` of the API client. -/
structure SystemDetail where
  SystemID : String

/-- The response of `geo.GetDeviceData`: the field that `main.go` reads. -/
structure DeviceData where
  SystemDetails : List SystemDetail

/-- The observable steps of `main`. -/
inductive Effect where
  | logError (msg : String)
  | goPollReadings (accessToken geoSystemID : String)
  | httpHandle (pattern : String)
  | listenAndServe (addr : String)
  | indexOutOfRange
  deriving DecidableEq

/-- Go `main`, with the outcome of `env.Parse` and the two start-up calls of the API client
as arguments.  The result lists the effects in order; `indexOutOfRange` is the run-time
panic of `SystemDetails[0]` on an empty slice. -/
def main (parsed : Except String config)
    (GetAccessToken : String → String → Except String String)
    (GetDeviceData : String → Except String DeviceData) : List Effect :=
  match parsed with
  | .error err => [.logError ("failed to parse config: " ++ err)]
  | .ok cfg =>
    match GetAccessToken cfg.User cfg.Pass with
    | .error err => [.logError ("failed to get access token config: " ++ err)]
    | .ok accessToken =>
      match GetDeviceData accessToken with
      | .error err => [.logError ("failed to get devices: " ++ err)]
      | .ok deviceData =>
        let numDevices := deviceData.SystemDetails.length
        if numDevices ≠ 1 then
          [.logError ("expected 1 device got " ++ toString numDevices)]
        else
          match deviceData.SystemDetails[0]? with
          | none => [.indexOutOfRange]
          | some d =>
            [.goPollReadings accessToken d.SystemID, .httpHandle "/metrics",
              .listenAndServe ":9090"]

/-! ## Vocabulary of the specification -/

/-- The last element of a list that satisfies `p`, if there is one. -/
def lastWhere {α : Type} (p : α → Bool) (l : List α) : Option α := (l.filter p).getLast?

/-- The duration strings of the API and the `duration` label each is published under. -/
def durationLabels : List (String × metrics.Duration) :=
  [(durationDay, metrics.Day), (durationWeek, metrics.Week), (durationMonth, metrics.Month)]

/-- A commodity-type string is recognised when it is `"ELECTRICITY"` or `"GAS_ENERGY"`. -/
def recognisedType (s : String) : Bool :=
  decide (s = powerTypeElectricity) || decide (s = powerTypeGas)

/-- A duration string is recognised when it is `"DAY"`, `"WEEK"` or `"MONTH"`. -/
def recognisedDuration (s : String) : Bool :=
  decide (s = durationDay) || decide (s = durationWeek) || decide (s = durationMonth)

/-- A live response without its records of unrecognised type. -/
def dropUnrecognisedLive {F : Type} (live : LiveData F) : LiveData F :=
  ⟨live.Power.filter (fun p => recognisedType p.Type_)⟩

/-- A periodic response without its records of unrecognised commodity type and without
its cost entries of unrecognised duration. -/
def dropUnrecognisedPeriodic {F : Type} (pd : PeriodicData F) : PeriodicData F :=
  { pd with
    TotalConsumptionList :=
      pd.TotalConsumptionList.filter (fun p => recognisedType p.CommodityType)
    CurrentCostsElec := pd.CurrentCostsElec.filter (fun c => recognisedDuration c.Duration)
    CurrentCostsGas := pd.CurrentCostsGas.filter (fun c => recognisedDuration c.Duration) }

/-- A periodic response without its consumption records whose value is not available. -/
def dropUnavailable {F : Type} (pd : PeriodicData F) : PeriodicData F :=
  { pd with TotalConsumptionList := pd.TotalConsumptionList.filter (fun p => p.ValueAvailable) }

/-- The exact number of seconds from the epoch second `t` to the clock reading `now`. -/
def elapsedSeconds (now : time.Time) (t : Int) : ℚ :=
  (((now.sec - time.unixToInternal - t) * 1000000000 + now.nsec : Int) : ℚ) / 1000000000

/-- The effect of the live pass on the registry, a failed fetch having none. -/
def liveProjection {F : Type} (fetch : Except String (LiveData F)) (r : metrics.Registry F) :
    metrics.Registry F :=
  match fetch with
  | .error _ => r
  | .ok live => (setLiveReadings (.ok live) r).1

/-- The effect of the periodic pass on the registry, a failed fetch having none. -/
def periodicProjection {F : Type} (now : time.Time) (fetch : Except String (PeriodicData F))
    (r : metrics.Registry F) : metrics.Registry F :=
  match fetch with
  | .error _ => r
  | .ok pd => (setPeriodicData now (.ok pd) r).1

/-- The common shape of the two cost loop bodies, by the utility they publish under. -/
def costStepFor {F : Type} (u : metrics.Utility) (r : metrics.Registry F) (c : CostEntry F) :
    metrics.Registry F :=
  if c.Duration = durationDay then metrics.Cost u metrics.Day c.CostAmount r
  else if c.Duration = durationWeek then metrics.Cost u metrics.Week c.CostAmount r
  else if c.Duration = durationMonth then metrics.Cost u metrics.Month c.CostAmount r
  else r

/-! ## Sample inputs -/

/-- Sample live response: two electricity records around a gas record and an unknown one. -/
def sampleLive : LiveData Int :=
  ⟨[⟨"ELECTRICITY", 500⟩, ⟨"GAS_ENERGY", 20⟩, ⟨"WATER", 7⟩, ⟨"ELECTRICITY", 510⟩]⟩

/-- Sample periodic response. -/
def samplePeriodic : PeriodicData Int :=
  { TotalConsumptionList :=
      [⟨"ELECTRICITY", 1000, 41, true⟩, ⟨"GAS_ENERGY", 1500, 17, true⟩,
        ⟨"ELECTRICITY", 1900, 42, true⟩, ⟨"ELECTRICITY", 1950, 43, false⟩]
    CurrentCostsElec := [⟨"DAY", 100⟩, ⟨"WEEK", 700⟩, ⟨"DAY", 150⟩, ⟨"YEAR", 9⟩, ⟨"MONTH", 3000⟩]
    CurrentCostsElecTimestamp := 1000
    CurrentCostsGas := [⟨"MONTH", 2000⟩, ⟨"DAY", 60⟩, ⟨"WEEK", 400⟩]
    CurrentCostsGasTimestamp := 2000 }

/-- Sample periodic response in which no consumption record has a value available. -/
def sampleUnavailable : PeriodicData Int :=
  { TotalConsumptionList := [⟨"ELECTRICITY", 1000, 41, false⟩, ⟨"GAS_ENERGY", 1500, 17, false⟩]
    CurrentCostsElec := [⟨"DAY", 100⟩]
    CurrentCostsElecTimestamp := 1000
    CurrentCostsGas := []
    CurrentCostsGasTimestamp := 2000 }

/-- A clock reading 3000 seconds after the Unix epoch. -/
def sampleNow : time.Time := ⟨time.unixToInternal + 3000, 0⟩

/-- A registry in which earlier calls have left samples on the meter gauges and on both
children of `current_cost_delay_seconds`. -/
def sampleRegistry : metrics.Registry Int :=
  metrics.CostDelay sampleNow metrics.Gas (time.Unix 700)
    (metrics.CostDelay sampleNow metrics.Electricity (time.Unix 600)
      (metrics.MeterReading sampleNow metrics.Gas 16 (time.Unix 500)
        (metrics.MeterReading sampleNow metrics.Electricity 40 (time.Unix 400)
          metrics.Registry.empty)))

/-- A periodic response whose gas cost timestamp is 1000 s before 1800000000. -/
def sampleRecentCosts : PeriodicData Int :=
  { TotalConsumptionList := []
    CurrentCostsElec := []
    CurrentCostsElecTimestamp := 1800000000
    CurrentCostsGas := []
    CurrentCostsGasTimestamp := 1799999000 }

/-- A periodic response whose gas cost timestamp lies in the year 1656. -/
def sampleAncientCosts : PeriodicData Int :=
  { TotalConsumptionList := []
    CurrentCostsElec := []
    CurrentCostsElecTimestamp := 1800000000
    CurrentCostsGas := []
    CurrentCostsGasTimestamp := -9900000000 }

/-! ## Auxiliary facts about loops and the setters -/

/-- A loop whose body sets the observed quantity at the elements satisfying `p` and leaves
it alone at the others ends with the value set by the last element satisfying `p`. -/
theorem foldl_obs_last {σ α β : Type} (step : σ → α → σ) (obs : σ → β) (p : α → Bool)
    (v : α → β) (hit : ∀ s x, p x = true → obs (step s x) = v x)
    (miss : ∀ s x, p x = false → obs (step s x) = obs s) (l : List α) (s : σ) :
    obs (l.foldl step s) = ((l.filter p).getLast?.map v).getD (obs s) := by
  induction l using List.reverseRecOn with
  | nil => simp
  | append_singleton l x ih =>
    rw [List.foldl_append, List.filter_append]
    cases hx : p x
    · simp [hx, miss _ _ hx, ih]
    · simp [hx, hit _ _ hx]

/-- A loop whose body never changes the observed quantity leaves it as it was. -/
theorem foldl_obs_frame {σ α β : Type} (step : σ → α → σ) (obs : σ → β)
    (frame : ∀ s x, obs (step s x) = obs s) (l : List α) (s : σ) :
    obs (l.foldl step s) = obs s := by
  induction l generalizing s with
  | nil => rfl
  | cons x l ih => rw [List.foldl_cons, ih, frame]

/-- Elements at which the loop body does nothing can be removed from the list. -/
theorem foldl_filter_skip {σ α : Type} (step : σ → α → σ) (p : α → Bool)
    (skip : ∀ s x, p x = false → step s x = s) (l : List α) (s : σ) :
    (l.filter p).foldl step s = l.foldl step s := by
  induction l generalizing s with
  | nil => rfl
  | cons x l ih =>
    cases hx : p x
    · simp [List.filter_cons, hx, skip _ _ hx, ih]
    · simp [List.filter_cons, hx, ih]

theorem gaugeSet_same {K V : Type} [DecidableEq K] (vec : K → Option V) (k : K) (v : V) :
    metrics.gaugeSet vec k v k = some v := by
  simp [metrics.gaugeSet]

theorem gaugeSet_other {K V : Type} [DecidableEq K] (vec : K → Option V) (k j : K) (v : V)
    (h : j ≠ k) : metrics.gaugeSet vec k v j = vec j := by
  simp [metrics.gaugeSet, h]

theorem gaugeSet_overwrite {K V : Type} [DecidableEq K] (vec : K → Option V) (k : K)
    (a b : V) : metrics.gaugeSet (metrics.gaugeSet vec k a) k b = metrics.gaugeSet vec k b := by
  funext j
  by_cases h : j = k <;> simp [metrics.gaugeSet, h]

theorem Gas_ne_Electricity : metrics.Gas ≠ metrics.Electricity := by decide

theorem powerTypeGas_ne_Electricity : powerTypeGas ≠ powerTypeElectricity := by decide

theorem liveStep_electricity {F : Type} (r : metrics.Registry F) (x : PowerReading F)
    (h : x.Type_ = powerTypeElectricity) :
    liveStep r x = metrics.LiveUsage metrics.Electricity x.Watts r := by
  simp [liveStep, h]

theorem liveStep_gas {F : Type} (r : metrics.Registry F) (x : PowerReading F)
    (h : x.Type_ = powerTypeGas) : liveStep r x = metrics.LiveUsage metrics.Gas x.Watts r := by
  have h1 : ¬ x.Type_ = powerTypeElectricity := by rw [h]; decide
  unfold liveStep
  rw [if_neg h1, if_pos h]

theorem liveStep_other {F : Type} (r : metrics.Registry F) (x : PowerReading F)
    (h1 : ¬ x.Type_ = powerTypeElectricity) (h2 : ¬ x.Type_ = powerTypeGas) :
    liveStep r x = r := by
  simp [liveStep, h1, h2]

/-- The live loop on the electricity child of `live_watts`. -/
theorem liveLoop_electricity {F : Type} (l : List (PowerReading F)) (r : metrics.Registry F) :
    (l.foldl liveStep r).liveUsage metrics.Electricity
      = ((l.filter (fun p => decide (p.Type_ = powerTypeElectricity))).getLast?.map
          (fun p => some p.Watts)).getD (r.liveUsage metrics.Electricity) := by
  apply foldl_obs_last liveStep (fun s => s.liveUsage metrics.Electricity)
  · intro s x hx
    rw [liveStep_electricity s x (of_decide_eq_true hx)]
    simp [metrics.LiveUsage, gaugeSet_same]
  · intro s x hx
    have hx1 : ¬ x.Type_ = powerTypeElectricity := of_decide_eq_false hx
    by_cases hg : x.Type_ = powerTypeGas
    · rw [liveStep_gas s x hg]
      simp [metrics.LiveUsage, gaugeSet_other _ _ _ _ (Ne.symm Gas_ne_Electricity)]
    · rw [liveStep_other s x hx1 hg]

/-- The live loop on the gas child of `live_watts`. -/
theorem liveLoop_gas {F : Type} (l : List (PowerReading F)) (r : metrics.Registry F) :
    (l.foldl liveStep r).liveUsage metrics.Gas
      = ((l.filter (fun p => decide (p.Type_ = powerTypeGas))).getLast?.map
          (fun p => some p.Watts)).getD (r.liveUsage metrics.Gas) := by
  apply foldl_obs_last liveStep (fun s => s.liveUsage metrics.Gas)
  · intro s x hx
    rw [liveStep_gas s x (of_decide_eq_true hx)]
    simp [metrics.LiveUsage, gaugeSet_same]
  · intro s x hx
    have hx1 : ¬ x.Type_ = powerTypeGas := of_decide_eq_false hx
    by_cases he : x.Type_ = powerTypeElectricity
    · rw [liveStep_electricity s x he]
      simp [metrics.LiveUsage, gaugeSet_other _ _ _ _ Gas_ne_Electricity]
    · rw [liveStep_other s x he hx1]

/-! ### The consumption loop -/

theorem consumptionStep_skip {F : Type} (now : time.Time) (r : metrics.Registry F)
    (x : ConsumptionRecord F) (h : x.ValueAvailable = false) : consumptionStep now r x = r := by
  simp [consumptionStep, h]

theorem consumptionStep_electricity {F : Type} (now : time.Time) (r : metrics.Registry F)
    (x : ConsumptionRecord F) (hv : x.ValueAvailable = true)
    (h : x.CommodityType = powerTypeElectricity) :
    consumptionStep now r x
      = metrics.MeterReading now metrics.Electricity x.TotalConsumption
          (time.Unix x.ReadingTime) r := by
  simp [consumptionStep, hv, h]

theorem consumptionStep_gas {F : Type} (now : time.Time) (r : metrics.Registry F)
    (x : ConsumptionRecord F) (hv : x.ValueAvailable = true)
    (h : x.CommodityType = powerTypeGas) :
    consumptionStep now r x
      = metrics.MeterReading now metrics.Gas x.TotalConsumption (time.Unix x.ReadingTime) r := by
  have h1 : ¬ x.CommodityType = powerTypeElectricity := by rw [h]; decide
  unfold consumptionStep
  rw [if_neg (by simp [hv]), if_neg h1, if_pos h]

theorem consumptionStep_other {F : Type} (now : time.Time) (r : metrics.Registry F)
    (x : ConsumptionRecord F) (h1 : ¬ x.CommodityType = powerTypeElectricity)
    (h2 : ¬ x.CommodityType = powerTypeGas) : consumptionStep now r x = r := by
  unfold consumptionStep
  by_cases hv : x.ValueAvailable = true
  · rw [if_neg (by simp [hv]), if_neg h1, if_neg h2]
  · rw [if_pos (by simpa using hv)]

/-- The three ways a consumption record is handled, by the utility `u` observed. -/
theorem consumptionStep_cases {F : Type} (now : time.Time) (r : metrics.Registry F)
    (x : ConsumptionRecord F) :
    consumptionStep now r x = r
      ∨ (x.ValueAvailable = true ∧ x.CommodityType = powerTypeElectricity
          ∧ consumptionStep now r x
            = metrics.MeterReading now metrics.Electricity x.TotalConsumption
                (time.Unix x.ReadingTime) r)
      ∨ (x.ValueAvailable = true ∧ x.CommodityType = powerTypeGas
          ∧ consumptionStep now r x
            = metrics.MeterReading now metrics.Gas x.TotalConsumption
                (time.Unix x.ReadingTime) r) := by
  by_cases hv : x.ValueAvailable = true
  · by_cases he : x.CommodityType = powerTypeElectricity
    · exact Or.inr (Or.inl ⟨hv, he, consumptionStep_electricity now r x hv he⟩)
    · by_cases hg : x.CommodityType = powerTypeGas
      · exact Or.inr (Or.inr ⟨hv, hg, consumptionStep_gas now r x hv hg⟩)
      · exact Or.inl (consumptionStep_other now r x he hg)
  · exact Or.inl (consumptionStep_skip now r x (by simpa using hv))

/-- The consumption loop on the electricity children of the two meter gauges. -/
theorem consumptionLoop_electricity {F : Type} (now : time.Time)
    (l : List (ConsumptionRecord F)) (r : metrics.Registry F) :
    ((l.foldl (consumptionStep now) r).meterReading metrics.Electricity,
      (l.foldl (consumptionStep now) r).meterReadingDelay metrics.Electricity)
      = ((l.filter (fun p => p.ValueAvailable
            && decide (p.CommodityType = powerTypeElectricity))).getLast?.map
          (fun p => (some p.TotalConsumption,
            some (time.Duration.Seconds (time.Since now (time.Unix p.ReadingTime)))))).getD
          (r.meterReading metrics.Electricity, r.meterReadingDelay metrics.Electricity) := by
  apply foldl_obs_last (consumptionStep now)
    (fun s => (s.meterReading metrics.Electricity, s.meterReadingDelay metrics.Electricity))
  · intro s x hx
    simp only [Bool.and_eq_true, decide_eq_true_eq] at hx
    rw [consumptionStep_electricity now s x hx.1 hx.2]
    simp [metrics.MeterReading, gaugeSet_same]
  · intro s x hx
    rcases consumptionStep_cases now s x with h | ⟨hv, he, _⟩ | ⟨_, hg, h⟩
    · rw [h]
    · simp [hv, he] at hx
    · rw [h]
      simp [metrics.MeterReading, gaugeSet_other _ _ _ _ (Ne.symm Gas_ne_Electricity)]

/-- The consumption loop on the gas children of the two meter gauges. -/
theorem consumptionLoop_gas {F : Type} (now : time.Time)
    (l : List (ConsumptionRecord F)) (r : metrics.Registry F) :
    ((l.foldl (consumptionStep now) r).meterReading metrics.Gas,
      (l.foldl (consumptionStep now) r).meterReadingDelay metrics.Gas)
      = ((l.filter (fun p => p.ValueAvailable
            && decide (p.CommodityType = powerTypeGas))).getLast?.map
          (fun p => (some p.TotalConsumption,
            some (time.Duration.Seconds (time.Since now (time.Unix p.ReadingTime)))))).getD
          (r.meterReading metrics.Gas, r.meterReadingDelay metrics.Gas) := by
  apply foldl_obs_last (consumptionStep now)
    (fun s => (s.meterReading metrics.Gas, s.meterReadingDelay metrics.Gas))
  · intro s x hx
    simp only [Bool.and_eq_true, decide_eq_true_eq] at hx
    rw [consumptionStep_gas now s x hx.1 hx.2]
    simp [metrics.MeterReading, gaugeSet_same]
  · intro s x hx
    rcases consumptionStep_cases now s x with h | ⟨_, he, h⟩ | ⟨hv, hg, _⟩
    · rw [h]
    · rw [h]
      simp [metrics.MeterReading, gaugeSet_other _ _ _ _ Gas_ne_Electricity]
    · simp [hv, hg] at hx

/-- The consumption loop writes to the two meter gauges only. -/
theorem consumptionLoop_frame {F : Type} (now : time.Time) (l : List (ConsumptionRecord F))
    (r : metrics.Registry F) :
    (l.foldl (consumptionStep now) r).liveUsage = r.liveUsage
      ∧ (l.foldl (consumptionStep now) r).cost = r.cost
      ∧ (l.foldl (consumptionStep now) r).costDelay = r.costDelay := by
  have h := foldl_obs_frame (consumptionStep now) (fun s => (s.liveUsage, s.cost, s.costDelay))
    (by
      intro s x
      rcases consumptionStep_cases now s x with h | ⟨_, _, h⟩ | ⟨_, _, h⟩ <;> rw [h] <;> rfl)
    l r
  simp only [Prod.mk.injEq] at h
  exact h

/-! ### The cost loops -/

theorem costStepElec_eq {F : Type} :
    (costStepElec : metrics.Registry F → CostEntry F → metrics.Registry F)
      = costStepFor metrics.Electricity := rfl

theorem costStepGas_eq {F : Type} :
    (costStepGas : metrics.Registry F → CostEntry F → metrics.Registry F)
      = costStepFor metrics.Gas := rfl

theorem costStepFor_hit {F : Type} (u : metrics.Utility) (r : metrics.Registry F)
    (c : CostEntry F) (D : String) (d : metrics.Duration) (hD : (D, d) ∈ durationLabels)
    (h : c.Duration = D) : costStepFor u r c = metrics.Cost u d c.CostAmount r := by
  simp only [durationLabels, List.mem_cons, Prod.mk.injEq, List.mem_singleton,
    List.not_mem_nil, or_false] at hD
  unfold costStepFor
  rcases hD with ⟨h1, h2⟩ | ⟨h1, h2⟩ | ⟨h1, h2⟩
  · rw [if_pos (h.trans h1), h2]
  · rw [if_neg (by rw [h, h1]; decide), if_pos (h.trans h1), h2]
  · rw [if_neg (by rw [h, h1]; decide), if_neg (by rw [h, h1]; decide), if_pos (h.trans h1), h2]

/-- A cost entry either does nothing or publishes under a label other than a given `d`,
when its duration string is not the one of `d`. -/
theorem costStepFor_miss {F : Type} (u : metrics.Utility) (r : metrics.Registry F)
    (c : CostEntry F) (D : String) (d : metrics.Duration) (hD : (D, d) ∈ durationLabels)
    (h : ¬ c.Duration = D) : (costStepFor u r c).cost (u, d) = r.cost (u, d) := by
  simp only [durationLabels, List.mem_cons, Prod.mk.injEq, List.mem_singleton,
    List.not_mem_nil, or_false] at hD
  unfold costStepFor
  have key : ∀ (e : metrics.Duration), e ≠ d →
      (metrics.Cost u e c.CostAmount r).cost (u, d) = r.cost (u, d) := by
    intro e he
    simp only [metrics.Cost]
    apply gaugeSet_other
    intro hk
    exact he (Prod.mk.inj hk).2.symm
  rcases hD with ⟨h1, h2⟩ | ⟨h1, h2⟩ | ⟨h1, h2⟩ <;> subst h1 <;> subst h2 <;>
    split_ifs <;> first | rfl | contradiction | (apply key; decide)

theorem costStepFor_frame {F : Type} (u : metrics.Utility) (r : metrics.Registry F)
    (c : CostEntry F) :
    (costStepFor u r c).liveUsage = r.liveUsage
      ∧ (costStepFor u r c).meterReading = r.meterReading
      ∧ (costStepFor u r c).meterReadingDelay = r.meterReadingDelay
      ∧ (costStepFor u r c).costDelay = r.costDelay := by
  unfold costStepFor
  split_ifs <;> exact ⟨rfl, rfl, rfl, rfl⟩

theorem costStepFor_other_utility {F : Type} (u v : metrics.Utility) (hv : v ≠ u)
    (r : metrics.Registry F) (c : CostEntry F) (d : metrics.Duration) :
    (costStepFor u r c).cost (v, d) = r.cost (v, d) := by
  have key : ∀ (e : metrics.Duration),
      (metrics.Cost u e c.CostAmount r).cost (v, d) = r.cost (v, d) := by
    intro e
    simp only [metrics.Cost]
    apply gaugeSet_other
    intro hk
    exact hv (Prod.mk.inj hk).1
  unfold costStepFor
  split_ifs <;> first | rfl | apply key

/-- A cost loop on the child of `current_cost_pence` at its own utility and a duration. -/
theorem costLoop_own {F : Type} (u : metrics.Utility) (D : String) (d : metrics.Duration)
    (hD : (D, d) ∈ durationLabels) (l : List (CostEntry F)) (r : metrics.Registry F) :
    (l.foldl (costStepFor u) r).cost (u, d)
      = ((l.filter (fun c => decide (c.Duration = D))).getLast?.map
          (fun c => some c.CostAmount)).getD (r.cost (u, d)) := by
  apply foldl_obs_last (costStepFor u) (fun s => s.cost (u, d))
  · intro s x hx
    rw [costStepFor_hit u s x D d hD (of_decide_eq_true hx)]
    simp [metrics.Cost, gaugeSet_same]
  · intro s x hx
    exact costStepFor_miss u s x D d hD (of_decide_eq_false hx)

/-- A cost loop leaves the children of the other utility alone. -/
theorem costLoop_other {F : Type} (u v : metrics.Utility) (hv : v ≠ u) (d : metrics.Duration)
    (l : List (CostEntry F)) (r : metrics.Registry F) :
    (l.foldl (costStepFor u) r).cost (v, d) = r.cost (v, d) :=
  foldl_obs_frame (costStepFor u) (fun s => s.cost (v, d))
    (fun s x => costStepFor_other_utility u v hv s x d) l r

/-- A cost loop writes to `current_cost_pence` only. -/
theorem costLoop_frame {F : Type} (u : metrics.Utility) (l : List (CostEntry F))
    (r : metrics.Registry F) :
    (l.foldl (costStepFor u) r).liveUsage = r.liveUsage
      ∧ (l.foldl (costStepFor u) r).meterReading = r.meterReading
      ∧ (l.foldl (costStepFor u) r).meterReadingDelay = r.meterReadingDelay
      ∧ (l.foldl (costStepFor u) r).costDelay = r.costDelay := by
  have h := foldl_obs_frame (costStepFor u)
    (fun s => (s.liveUsage, s.meterReading, s.meterReadingDelay, s.costDelay))
    (by
      intro s x
      obtain ⟨h1, h2, h3, h4⟩ := costStepFor_frame u s x
      simp only [h1, h2, h3, h4])
    l r
  simp only [Prod.mk.injEq] at h
  exact h

/-! ### The two passes, gauge by gauge -/

theorem setLiveReadings_ok {F : Type} (live : LiveData F) (r : metrics.Registry F) :
    setLiveReadings (.ok live) r = (live.Power.foldl liveStep r, none) := rfl

theorem setPeriodicData_ok {F : Type} (now : time.Time) (pd : PeriodicData F)
    (r : metrics.Registry F) :
    setPeriodicData now (.ok pd) r
      = (metrics.CostDelay now metrics.Electricity (time.Unix pd.CurrentCostsGasTimestamp)
          (pd.CurrentCostsGas.foldl (costStepFor metrics.Gas)
            (metrics.CostDelay now metrics.Electricity (time.Unix pd.CurrentCostsElecTimestamp)
              (pd.CurrentCostsElec.foldl (costStepFor metrics.Electricity)
                (pd.TotalConsumptionList.foldl (consumptionStep now) r)))), none) := rfl

/-- The meter gauges after the periodic pass are those after its consumption loop. -/
theorem setPeriodicData_meter {F : Type} (now : time.Time) (pd : PeriodicData F)
    (r : metrics.Registry F) :
    (setPeriodicData now (.ok pd) r).1.meterReading
        = (pd.TotalConsumptionList.foldl (consumptionStep now) r).meterReading
      ∧ (setPeriodicData now (.ok pd) r).1.meterReadingDelay
        = (pd.TotalConsumptionList.foldl (consumptionStep now) r).meterReadingDelay := by
  rw [setPeriodicData_ok]
  simp only [metrics.CostDelay]
  obtain ⟨_, h2, h3, _⟩ := costLoop_frame metrics.Gas pd.CurrentCostsGas
    (metrics.CostDelay now metrics.Electricity (time.Unix pd.CurrentCostsElecTimestamp)
      (pd.CurrentCostsElec.foldl (costStepFor metrics.Electricity)
        (pd.TotalConsumptionList.foldl (consumptionStep now) r)))
  obtain ⟨_, k2, k3, _⟩ := costLoop_frame metrics.Electricity pd.CurrentCostsElec
    (pd.TotalConsumptionList.foldl (consumptionStep now) r)
  simp only [metrics.CostDelay] at h2 h3
  exact ⟨h2.trans k2, h3.trans k3⟩

/-- The electricity children of `current_cost_pence` after the periodic pass. -/
theorem setPeriodicData_cost_electricity {F : Type} (now : time.Time) (pd : PeriodicData F)
    (r : metrics.Registry F) (D : String) (d : metrics.Duration)
    (hD : (D, d) ∈ durationLabels) :
    (setPeriodicData now (.ok pd) r).1.cost (metrics.Electricity, d)
      = ((pd.CurrentCostsElec.filter (fun c => decide (c.Duration = D))).getLast?.map
          (fun c => some c.CostAmount)).getD (r.cost (metrics.Electricity, d)) := by
  rw [setPeriodicData_ok]
  simp only [metrics.CostDelay]
  rw [costLoop_other metrics.Gas metrics.Electricity (Ne.symm Gas_ne_Electricity)]
  simp only []
  rw [costLoop_own metrics.Electricity D d hD, (consumptionLoop_frame now _ r).2.1]

/-- The gas children of `current_cost_pence` after the periodic pass. -/
theorem setPeriodicData_cost_gas {F : Type} (now : time.Time) (pd : PeriodicData F)
    (r : metrics.Registry F) (D : String) (d : metrics.Duration)
    (hD : (D, d) ∈ durationLabels) :
    (setPeriodicData now (.ok pd) r).1.cost (metrics.Gas, d)
      = ((pd.CurrentCostsGas.filter (fun c => decide (c.Duration = D))).getLast?.map
          (fun c => some c.CostAmount)).getD (r.cost (metrics.Gas, d)) := by
  rw [setPeriodicData_ok]
  simp only [metrics.CostDelay]
  rw [costLoop_own metrics.Gas D d hD]
  simp only []
  rw [costLoop_other metrics.Electricity metrics.Gas Gas_ne_Electricity,
    (consumptionLoop_frame now _ r).2.1]

/-- The gauge `current_cost_delay_seconds` after the periodic pass: its electricity child
holds the delay of the gas timestamp, no other child is written. -/
theorem setPeriodicData_costDelay {F : Type} (now : time.Time) (pd : PeriodicData F)
    (r : metrics.Registry F) :
    (setPeriodicData now (.ok pd) r).1.costDelay
      = metrics.gaugeSet r.costDelay metrics.Electricity
          (time.Duration.Seconds (time.Since now (time.Unix pd.CurrentCostsGasTimestamp))) := by
  rw [setPeriodicData_ok]
  simp only [metrics.CostDelay]
  rw [(costLoop_frame metrics.Gas _ _).2.2.2]
  simp only []
  rw [(costLoop_frame metrics.Electricity _ _).2.2.2, (consumptionLoop_frame now _ r).2.2,
    gaugeSet_overwrite]

/-! ### Time arithmetic -/

theorem wrapInt64_of_range (x : Int) (h1 : -(2 ^ 63) ≤ x) (h2 : x < 2 ^ 63) :
    time.wrapInt64 x = x := by
  unfold time.wrapInt64
  rw [Int.emod_eq_of_lt (by omega) (by omega)]
  omega

/-- A rational within half a unit of the integer `m` rounds to `m`. -/
theorem roundHalfEven_of_near (x : ℚ) (m : Int) (h : |x - m| < 1 / 2) :
    time.roundHalfEven x = m := by
  rw [abs_lt] at h
  unfold time.roundHalfEven
  by_cases hm : (m : ℚ) ≤ x
  · have hf : ⌊x⌋ = m := by
      rw [Int.floor_eq_iff]
      constructor
      · exact hm
      · linarith [h.2]
    simp only [hf]
    rw [if_pos (by linarith [h.2])]
  · have hf : ⌊x⌋ = m - 1 := by
      rw [Int.floor_eq_iff]
      push_cast
      constructor
      · linarith [h.1]
      · linarith [not_le.mp hm]
    simp only [hf]
    push_cast
    rw [if_neg (by linarith [h.1]), if_pos (by linarith [h.1])]
    ring

/-- The value of `float64` at a rational whose binade `E` and nearest significand `m` are
known. -/
theorem float64_of_binade (x : ℚ) (E m : Int) (h1 : (2 : ℚ) ^ E ≤ |x|)
    (h2 : |x| < (2 : ℚ) ^ (E + 1)) (hE : -1022 ≤ E)
    (hm : |x / 2 ^ (E - 52) - m| < 1 / 2) : time.float64 x = (m : ℚ) * 2 ^ (E - 52) := by
  have hpos : 0 < |x| := lt_of_lt_of_le (zpow_pos (by norm_num) E) h1
  have hx : x ≠ 0 := abs_pos.mp hpos
  have hlog : Int.log 2 |x| = E := by
    apply le_antisymm
    · have := (Int.lt_zpow_iff_log_lt (b := 2) (by norm_num) hpos (x := E + 1)).mp
        (by exact_mod_cast h2)
      omega
    · exact (Int.zpow_le_iff_le_log (b := 2) (by norm_num) hpos).mp (by exact_mod_cast h1)
  unfold time.float64
  rw [if_neg hx]
  simp only [hlog, max_eq_left hE]
  rw [roundHalfEven_of_near _ m hm]

/-- An integer below `2 ^ 53` in absolute value is a `float64`. -/
theorem float64_intCast (k : Int) (h : |k| < 2 ^ 53) : time.float64 (k : ℚ) = k := by
  by_cases hk : k = 0
  · simp [hk, time.float64]
  · obtain ⟨n, hn⟩ : ∃ n : ℕ, |k| = n := ⟨|k|.toNat, (Int.toNat_of_nonneg (abs_nonneg k)).symm⟩
    have hn0 : n ≠ 0 := by
      intro h0
      rw [h0] at hn
      exact hk (abs_eq_zero.mp (by exact_mod_cast hn))
    have hn53 : n < 2 ^ 53 := by
      have : (n : Int) < 2 ^ 53 := hn ▸ h
      exact_mod_cast this
    have habs : |(k : ℚ)| = (n : ℚ) := by
      rw [← Int.cast_abs, hn]
      norm_cast
    have hL : Nat.log 2 n < 53 := Nat.log_lt_of_lt_pow hn0 hn53
    have hlog : Int.log 2 |(k : ℚ)| = (Nat.log 2 n : Int) := by
      rw [habs]
      exact Int.log_natCast 2 n
    unfold time.float64
    rw [if_neg (by exact_mod_cast hk)]
    simp only [hlog]
    rw [max_eq_left (by omega)]
    obtain ⟨j, hj⟩ : ∃ j : ℕ, (Nat.log 2 n : Int) - 52 = -(j : Int) :=
      ⟨52 - Nat.log 2 n, by omega⟩
    rw [hj, zpow_neg, zpow_natCast, div_inv_eq_mul]
    have hcast : (k : ℚ) * 2 ^ j = ((k * 2 ^ j : Int) : ℚ) := by push_cast; ring
    rw [hcast, roundHalfEven_of_near _ (k * 2 ^ j) (by simp)]
    push_cast
    field_simp

/-- The value of `Duration.Seconds` from the values of its division and its addition. -/
theorem Seconds_of_parts (d sec nsec : Int) (q v : ℚ)
    (hsec : Int.tdiv d time.Second = sec) (hnsec : Int.tmod d time.Second = nsec)
    (hs : |sec| < 2 ^ 53) (hn : |nsec| < 2 ^ 53)
    (hq : time.float64 ((nsec : ℚ) / 1000000000) = q)
    (hv : time.float64 ((sec : ℚ) + q) = v) : time.Duration.Seconds d = v := by
  unfold time.Duration.Seconds
  simp only [hsec, hnsec]
  rw [float64_intCast sec hs, float64_intCast nsec hn, hq, hv]

/-- On a whole number of seconds `Duration.Seconds` is exact. -/
theorem Seconds_whole (k : Int) (hk : |k| < 2 ^ 53) :
    time.Duration.Seconds (k * 1000000000) = (k : ℚ) := by
  apply Seconds_of_parts (k * 1000000000) k 0 0 k
  · exact Int.mul_tdiv_cancel k (by decide)
  · exact Int.mul_tmod_left k 1000000000
  · exact hk
  · decide
  · simp [time.float64]
  · rw [add_zero]
    exact float64_intCast k hk

/-- The `float64` quotient `float64(100000000)/1e9`, one tenth of a second. -/
theorem float64_tenth :
    time.float64 (((100000000 : Int) : ℚ) / 1000000000)
      = 3602879701896397 / 36028797018963968 := by
  rw [float64_of_binade _ (-4) 7205759403792794 (by norm_num [abs_of_pos])
    (by norm_num [abs_of_pos]) (by norm_num) (by norm_num [abs_lt])]
  norm_num

/-- The seconds of the saturated `maxDuration`, as the program computes them. -/
theorem Seconds_maxDuration :
    time.Duration.Seconds 9223372036854775807 = 4835703278458517 / 524288 := by
  apply Seconds_of_parts 9223372036854775807 9223372036 854775807
    (3849568005890515 / 4503599627370496) _ (by decide) (by decide) (by decide) (by decide)
  · rw [float64_of_binade _ (-1) 7699136011781030 (by norm_num [abs_of_pos])
      (by norm_num [abs_of_pos]) (by norm_num) (by norm_num [abs_lt])]
    norm_num
  · rw [float64_of_binade _ 33 4835703278458517 (by norm_num [abs_of_pos])
      (by norm_num [abs_of_pos]) (by norm_num) (by norm_num [abs_lt])]
    norm_num

/-- The seconds of 2000.1 s, as the program computes them. -/
theorem Seconds_2000_1 :
    time.Duration.Seconds 2000100000000 = 4398266413429555 / 2199023255552 := by
  apply Seconds_of_parts 2000100000000 2000 100000000 _ _ (by decide) (by decide)
    (by decide) (by decide) float64_tenth
  rw [float64_of_binade _ 10 8796532826859110 (by norm_num [abs_of_pos])
    (by norm_num [abs_of_pos]) (by norm_num) (by norm_num [abs_lt])]
  norm_num

/-- The seconds of 1000.1 s, as the program computes them. -/
theorem Seconds_1000_1 :
    time.Duration.Seconds 1000100000000 = 8796972631510221 / 8796093022208 := by
  apply Seconds_of_parts 1000100000000 1000 100000000 _ _ (by decide) (by decide)
    (by decide) (by decide) float64_tenth
  rw [float64_of_binade _ 9 8796972631510221 (by norm_num [abs_of_pos])
    (by norm_num [abs_of_pos]) (by norm_num) (by norm_num [abs_lt])]
  norm_num

/-- Within the range of `time.Unix` and of a `Duration`, `time.Since` is the exact
difference in nanoseconds. -/
theorem Since_Unix_of_range (now : time.Time) (t : Int)
    (ht : -(2 ^ 63) ≤ t ∧ t + time.unixToInternal < 2 ^ 63)
    (hd : time.minDuration ≤ (now.sec - time.unixToInternal - t) * time.Second + now.nsec
      ∧ (now.sec - time.unixToInternal - t) * time.Second + now.nsec ≤ time.maxDuration) :
    time.Since now (time.Unix t)
      = (now.sec - time.unixToInternal - t) * 1000000000 + now.nsec := by
  have hw : time.wrapInt64 (t + time.unixToInternal) = t + time.unixToInternal :=
    wrapInt64_of_range _ (by unfold time.unixToInternal; omega) ht.2
  unfold time.Since time.Time.Sub time.Unix
  simp only [hw]
  have e : (now.sec - (t + time.unixToInternal)) * time.Second + (now.nsec - 0)
      = (now.sec - time.unixToInternal - t) * time.Second + now.nsec := by ring
  rw [e, if_neg (not_lt.mpr hd.1), if_neg (not_lt.mpr hd.2)]
  rfl

/-- With the clock at a whole second, within the range of `time.Unix` and of a
`Duration`, the seconds of `time.Since` are the exact difference. -/
theorem staleness_of_range (now : time.Time) (t : Int) (hn : now.nsec = 0)
    (ht : -(2 ^ 63) ≤ t ∧ t + time.unixToInternal < 2 ^ 63)
    (hd : time.minDuration ≤ (now.sec - time.unixToInternal - t) * time.Second + now.nsec
      ∧ (now.sec - time.unixToInternal - t) * time.Second + now.nsec ≤ time.maxDuration) :
    time.Duration.Seconds (time.Since now (time.Unix t)) = elapsedSeconds now t := by
  rw [Since_Unix_of_range now t ht hd, hn, add_zero]
  have hk : |now.sec - time.unixToInternal - t| < 2 ^ 53 := by
    rw [hn] at hd
    have h1 : (-(2 ^ 63) : Int) ≤ (now.sec - time.unixToInternal - t) * 1000000000 + 0 :=
      hd.1
    have h2 : (now.sec - time.unixToInternal - t) * 1000000000 + 0 ≤ (2 ^ 63 - 1 : Int) :=
      hd.2
    rw [abs_lt]
    constructor <;> omega
  rw [Seconds_whole _ hk]
  unfold elapsedSeconds
  rw [hn]
  push_cast
  field_simp

/-! ## The claims -/

/-- C4, the claim as stated fails, in two ways.  With the clock at 1700000000 and a reading
time of -10000000000 the elapsed time does not fit a `Duration`, `time.Since` saturates,
and the delay gauge holds 4835703278458517/524288 (about 9223372036.85) instead of
11700000000.  With the clock at 946684800.1 and a reading time of 946682800 the elapsed
time of 2000.1 s is not a `float64`, and the delay gauge holds
4398266413429555/2199023255552 instead of 20001/10. -/
theorem C4_staleness_not_exact_counterexample :
    ((metrics.MeterReading ⟨time.unixToInternal + 1700000000, 0⟩ metrics.Electricity (0 : Int)
          (time.Unix (-10000000000)) metrics.Registry.empty).meterReadingDelay
          metrics.Electricity = some (4835703278458517 / 524288)
      ∧ elapsedSeconds ⟨time.unixToInternal + 1700000000, 0⟩ (-10000000000) = 11700000000
      ∧ (metrics.MeterReading ⟨time.unixToInternal + 1700000000, 0⟩ metrics.Electricity
          (0 : Int) (time.Unix (-10000000000)) metrics.Registry.empty).meterReadingDelay
          metrics.Electricity
        ≠ some (elapsedSeconds ⟨time.unixToInternal + 1700000000, 0⟩ (-10000000000)))
    ∧ ((metrics.MeterReading ⟨time.unixToInternal + 946684800, 100000000⟩ metrics.Electricity
          (0 : Int) (time.Unix 946682800) metrics.Registry.empty).meterReadingDelay
          metrics.Electricity = some (4398266413429555 / 2199023255552)
      ∧ elapsedSeconds ⟨time.unixToInternal + 946684800, 100000000⟩ 946682800 = 20001 / 10
      ∧ (metrics.MeterReading ⟨time.unixToInternal + 946684800, 100000000⟩
          metrics.Electricity (0 : Int) (time.Unix 946682800)
          metrics.Registry.empty).meterReadingDelay metrics.Electricity
        ≠ some (elapsedSeconds ⟨time.unixToInternal + 946684800, 100000000⟩ 946682800)) := by
  have hs : time.Since ⟨time.unixToInternal + 1700000000, 0⟩ (time.Unix (-10000000000))
      = 9223372036854775807 := by decide
  have h1 : (metrics.MeterReading ⟨time.unixToInternal + 1700000000, 0⟩ metrics.Electricity
        (0 : Int) (time.Unix (-10000000000)) metrics.Registry.empty).meterReadingDelay
        metrics.Electricity = some (4835703278458517 / 524288) := by
    simp only [metrics.MeterReading, gaugeSet_same, hs, Seconds_maxDuration]
  have h2 : elapsedSeconds ⟨time.unixToInternal + 1700000000, 0⟩ (-10000000000)
      = 11700000000 := by
    simp only [elapsedSeconds, time.unixToInternal]
    norm_num
  have ht : time.Since ⟨time.unixToInternal + 946684800, 100000000⟩ (time.Unix 946682800)
      = 2000100000000 := by decide
  have h3 : (metrics.MeterReading ⟨time.unixToInternal + 946684800, 100000000⟩
        metrics.Electricity (0 : Int) (time.Unix 946682800)
        metrics.Registry.empty).meterReadingDelay metrics.Electricity
      = some (4398266413429555 / 2199023255552) := by
    simp only [metrics.MeterReading, gaugeSet_same, ht, Seconds_2000_1]
  have h4 : elapsedSeconds ⟨time.unixToInternal + 946684800, 100000000⟩ 946682800
      = 20001 / 10 := by
    simp only [elapsedSeconds, time.unixToInternal]
    norm_num
  refine ⟨⟨h1, h2, ?_⟩, ⟨h3, h4, ?_⟩⟩
  · rw [h1, h2]
    norm_num
  · rw [h3, h4]
    norm_num

/-- C4, amended: with the clock fixed at a whole second `now`, for every reading time `t`
that `time.Unix` represents without overflow and whose distance from `now` fits a
`Duration`, the gauge `meter_reading_delay_seconds` after `MeterReading` and the gauge
`current_cost_delay_seconds` after `CostDelay` hold exactly `now - t` in seconds, and that
value is negative exactly when `t` is later than `now`. -/
theorem C4_staleness_exact_within_range {F : Type} (now : time.Time) (t : Int)
    (u : metrics.Utility) (w : F) (g : metrics.Registry F) (hn : now.nsec = 0)
    (ht : -(2 ^ 63) ≤ t ∧ t + time.unixToInternal < 2 ^ 63)
    (hd : time.minDuration ≤ (now.sec - time.unixToInternal - t) * time.Second + now.nsec
      ∧ (now.sec - time.unixToInternal - t) * time.Second + now.nsec ≤ time.maxDuration) :
    (metrics.MeterReading now u w (time.Unix t) g).meterReadingDelay u
        = some (elapsedSeconds now t)
    ∧ (metrics.CostDelay now u (time.Unix t) g).costDelay u = some (elapsedSeconds now t)
    ∧ (elapsedSeconds now t < 0 ↔ now.Before (time.Unix t) = true) := by
  have hs := staleness_of_range now t hn ht hd
  refine ⟨?_, ?_, ?_⟩
  · simp only [metrics.MeterReading, gaugeSet_same, hs]
  · simp only [metrics.CostDelay, gaugeSet_same, hs]
  · have hw : time.wrapInt64 (t + time.unixToInternal) = t + time.unixToInternal :=
      wrapInt64_of_range _ (by unfold time.unixToInternal; omega) ht.2
    have hneg : elapsedSeconds now t < 0
        ↔ (now.sec - time.unixToInternal - t) * 1000000000 + now.nsec < 0 := by
      unfold elapsedSeconds
      rw [div_neg_iff]
      constructor
      · rintro (⟨_, h⟩ | ⟨h, _⟩)
        · norm_num at h
        · exact_mod_cast h
      · intro h
        exact Or.inr ⟨by exact_mod_cast h, by norm_num⟩
    rw [hneg]
    simp only [time.Time.Before, time.Unix, hw, Bool.or_eq_true, Bool.and_eq_true,
      decide_eq_true_eq]
    constructor
    · intro h
      left
      omega
    · rintro (h | ⟨_, h⟩)
      · omega
      · omega

/-- C4, amended, at a reading 2000 seconds before the clock. -/
theorem C4_staleness_exact_within_range_witness :
    (metrics.MeterReading sampleNow metrics.Gas (17 : Int) (time.Unix 1000)
        metrics.Registry.empty).meterReadingDelay metrics.Gas
        = some (elapsedSeconds sampleNow 1000)
    ∧ (metrics.CostDelay sampleNow metrics.Gas (time.Unix 1000)
        (metrics.Registry.empty : metrics.Registry Int)).costDelay metrics.Gas
        = some (elapsedSeconds sampleNow 1000)
    ∧ (elapsedSeconds sampleNow 1000 < 0 ↔ sampleNow.Before (time.Unix 1000) = true) :=
  C4_staleness_exact_within_range sampleNow 1000 metrics.Gas 17 metrics.Registry.empty
    (by decide) (by decide) (by decide)

/-- C1: each recognised classification lands on its own gauge key.  After `setLiveReadings`
on a fetched response, `live_watts` at `electricity` (resp. `gas`) holds the watts of the
last record of type `"ELECTRICITY"` (resp. `"GAS_ENERGY"`); after `setPeriodicData`,
`meter_reading` at a utility holds the total consumption of the last value-available record
of its commodity type, and `current_cost_pence` at a utility and `day`, `week` or `month`
holds the cost amount of the last entry of that utility's cost list whose duration is
`"DAY"`, `"WEEK"` or `"MONTH"`. -/
theorem C1_recognised_classification_own_key {F : Type} (now : time.Time)
    (g : metrics.Registry F) (live : LiveData F) (pd : PeriodicData F) :
    (∀ rec, lastWhere (fun p => decide (p.Type_ = powerTypeElectricity)) live.Power = some rec →
        (setLiveReadings (.ok live) g).1.liveUsage metrics.Electricity = some rec.Watts)
    ∧ (∀ rec, lastWhere (fun p => decide (p.Type_ = powerTypeGas)) live.Power = some rec →
        (setLiveReadings (.ok live) g).1.liveUsage metrics.Gas = some rec.Watts)
    ∧ (∀ rec, lastWhere (fun p => p.ValueAvailable
            && decide (p.CommodityType = powerTypeElectricity)) pd.TotalConsumptionList
          = some rec →
        (setPeriodicData now (.ok pd) g).1.meterReading metrics.Electricity
          = some rec.TotalConsumption)
    ∧ (∀ rec, lastWhere (fun p => p.ValueAvailable
            && decide (p.CommodityType = powerTypeGas)) pd.TotalConsumptionList = some rec →
        (setPeriodicData now (.ok pd) g).1.meterReading metrics.Gas
          = some rec.TotalConsumption)
    ∧ (∀ D d, (D, d) ∈ durationLabels →
        ∀ c, lastWhere (fun c => decide (c.Duration = D)) pd.CurrentCostsElec = some c →
          (setPeriodicData now (.ok pd) g).1.cost (metrics.Electricity, d) = some c.CostAmount)
    ∧ (∀ D d, (D, d) ∈ durationLabels →
        ∀ c, lastWhere (fun c => decide (c.Duration = D)) pd.CurrentCostsGas = some c →
          (setPeriodicData now (.ok pd) g).1.cost (metrics.Gas, d) = some c.CostAmount) := by
  refine ⟨?_, ?_, ?_, ?_, ?_, ?_⟩
  · intro rec h
    rw [setLiveReadings_ok, liveLoop_electricity]
    unfold lastWhere at h
    rw [h]
    rfl
  · intro rec h
    rw [setLiveReadings_ok, liveLoop_gas]
    unfold lastWhere at h
    rw [h]
    rfl
  · intro rec h
    have key := consumptionLoop_electricity now pd.TotalConsumptionList g
    unfold lastWhere at h
    rw [h] at key
    rw [(setPeriodicData_meter now pd g).1]
    exact congrArg Prod.fst key
  · intro rec h
    have key := consumptionLoop_gas now pd.TotalConsumptionList g
    unfold lastWhere at h
    rw [h] at key
    rw [(setPeriodicData_meter now pd g).1]
    exact congrArg Prod.fst key
  · intro D d hD c h
    rw [setPeriodicData_cost_electricity now pd g D d hD]
    unfold lastWhere at h
    rw [h]
    rfl
  · intro D d hD c h
    rw [setPeriodicData_cost_gas now pd g D d hD]
    unfold lastWhere at h
    rw [h]
    rfl

/-- C1 at the sample responses, from the empty registry. -/
theorem C1_recognised_classification_own_key_witness :
    (setLiveReadings (.ok sampleLive) metrics.Registry.empty).1.liveUsage metrics.Electricity
        = some 510
    ∧ (setLiveReadings (.ok sampleLive) metrics.Registry.empty).1.liveUsage metrics.Gas
        = some 20
    ∧ (setPeriodicData sampleNow (.ok samplePeriodic) metrics.Registry.empty).1.meterReading
        metrics.Electricity = some 42
    ∧ (setPeriodicData sampleNow (.ok samplePeriodic) metrics.Registry.empty).1.meterReading
        metrics.Gas = some 17
    ∧ (setPeriodicData sampleNow (.ok samplePeriodic) metrics.Registry.empty).1.cost
        (metrics.Electricity, metrics.Day) = some 150
    ∧ (setPeriodicData sampleNow (.ok samplePeriodic) metrics.Registry.empty).1.cost
        (metrics.Gas, metrics.Week) = some 400 :=
  have h := C1_recognised_classification_own_key sampleNow metrics.Registry.empty sampleLive
    samplePeriodic
  ⟨h.1 ⟨"ELECTRICITY", 510⟩ rfl, h.2.1 ⟨"GAS_ENERGY", 20⟩ rfl,
    h.2.2.1 ⟨"ELECTRICITY", 1900, 42, true⟩ rfl,
    h.2.2.2.1 ⟨"GAS_ENERGY", 1500, 17, true⟩ rfl,
    h.2.2.2.2.1 "DAY" "day" (by decide) ⟨"DAY", 150⟩ rfl,
    h.2.2.2.2.2 "WEEK" "week" (by decide) ⟨"WEEK", 400⟩ rfl⟩

theorem liveStep_unrecognised {F : Type} (r : metrics.Registry F) (x : PowerReading F)
    (h : recognisedType x.Type_ = false) : liveStep r x = r := by
  simp only [recognisedType, Bool.or_eq_false_iff, decide_eq_false_iff_not] at h
  exact liveStep_other r x h.1 h.2

theorem consumptionStep_unrecognised {F : Type} (now : time.Time) (r : metrics.Registry F)
    (x : ConsumptionRecord F) (h : recognisedType x.CommodityType = false) :
    consumptionStep now r x = r := by
  simp only [recognisedType, Bool.or_eq_false_iff, decide_eq_false_iff_not] at h
  exact consumptionStep_other now r x h.1 h.2

theorem costStepFor_unrecognised {F : Type} (u : metrics.Utility) (r : metrics.Registry F)
    (c : CostEntry F) (h : recognisedDuration c.Duration = false) : costStepFor u r c = r := by
  simp only [recognisedDuration, Bool.or_eq_false_iff, decide_eq_false_iff_not] at h
  unfold costStepFor
  rw [if_neg h.1.1, if_neg h.1.2, if_neg h.2]

/-- C2: unrecognised commodity-type or duration strings never mutate any gauge.  Running
`setLiveReadings` (resp. `setPeriodicData`) on a fetched response gives the same registry
and the same `nil` error as running it on the response without its records of unrecognised
type and its cost entries of unrecognised duration; a live response made of one electricity
record and one record of unrecognised type, in either order, acts as the single call
`LiveUsage(Electricity, watts)`. -/
theorem C2_unrecognised_strings_never_mutate {F : Type} (now : time.Time)
    (g : metrics.Registry F) (live : LiveData F) (pd : PeriodicData F) :
    setLiveReadings (.ok (dropUnrecognisedLive live)) g = setLiveReadings (.ok live) g
    ∧ (setLiveReadings (.ok live) g).2 = none
    ∧ setPeriodicData now (.ok (dropUnrecognisedPeriodic pd)) g = setPeriodicData now (.ok pd) g
    ∧ (setPeriodicData now (.ok pd) g).2 = none
    ∧ (∀ (watts : F) (unknown : PowerReading F), recognisedType unknown.Type_ = false →
        setLiveReadings (.ok ⟨[⟨powerTypeElectricity, watts⟩, unknown]⟩) g
            = (metrics.LiveUsage metrics.Electricity watts g, none)
          ∧ setLiveReadings (.ok ⟨[unknown, ⟨powerTypeElectricity, watts⟩]⟩) g
            = (metrics.LiveUsage metrics.Electricity watts g, none)) := by
  refine ⟨?_, rfl, ?_, rfl, ?_⟩
  · rw [setLiveReadings_ok, setLiveReadings_ok]
    simp only [dropUnrecognisedLive]
    rw [foldl_filter_skip liveStep (fun p => recognisedType p.Type_)
      (fun s x h => liveStep_unrecognised s x h)]
  · rw [setPeriodicData_ok, setPeriodicData_ok]
    simp only [dropUnrecognisedPeriodic]
    rw [foldl_filter_skip (consumptionStep now) (fun p => recognisedType p.CommodityType)
        (fun s x h => consumptionStep_unrecognised now s x h),
      foldl_filter_skip (costStepFor metrics.Electricity)
        (fun c => recognisedDuration c.Duration)
        (fun s x h => costStepFor_unrecognised metrics.Electricity s x h),
      foldl_filter_skip (costStepFor metrics.Gas) (fun c => recognisedDuration c.Duration)
        (fun s x h => costStepFor_unrecognised metrics.Gas s x h)]
  · intro watts unknown h
    constructor
    · rw [setLiveReadings_ok]
      simp only [List.foldl_cons, List.foldl_nil]
      rw [liveStep_unrecognised _ unknown h, liveStep_electricity _ _ rfl]
    · rw [setLiveReadings_ok]
      simp only [List.foldl_cons, List.foldl_nil]
      rw [liveStep_unrecognised _ unknown h, liveStep_electricity _ _ rfl]

/-- C2 at the example of the specification: an electricity record of 500 W and a record
of type `"WATER"` set `live_watts` at `electricity` to 500 and nothing else. -/
theorem C2_unrecognised_strings_never_mutate_witness :
    setLiveReadings (.ok ⟨[⟨powerTypeElectricity, (500 : Int)⟩, ⟨"WATER", 7⟩]⟩)
        metrics.Registry.empty
      = (metrics.LiveUsage metrics.Electricity 500 metrics.Registry.empty, none)
    ∧ setLiveReadings (.ok ⟨[⟨"WATER", 7⟩, ⟨powerTypeElectricity, (500 : Int)⟩]⟩)
        metrics.Registry.empty
      = (metrics.LiveUsage metrics.Electricity 500 metrics.Registry.empty, none) :=
  (C2_unrecognised_strings_never_mutate sampleNow metrics.Registry.empty sampleLive
    samplePeriodic).2.2.2.2 500 ⟨"WATER", 7⟩ (by decide)

/-- C3: records whose value is not available never trigger a `MeterReading` call.  After
`setPeriodicData` the gauges `meter_reading` and `meter_reading_delay_seconds` are as they
would be with those records removed from the consumption list, and when no record has a
value available both gauges are as before, for every utility. -/
theorem C3_unavailable_records_never_publish {F : Type} (now : time.Time)
    (g : metrics.Registry F) (pd : PeriodicData F) :
    (setPeriodicData now (.ok pd) g).1.meterReading
        = (setPeriodicData now (.ok (dropUnavailable pd)) g).1.meterReading
    ∧ (setPeriodicData now (.ok pd) g).1.meterReadingDelay
        = (setPeriodicData now (.ok (dropUnavailable pd)) g).1.meterReadingDelay
    ∧ ((∀ p ∈ pd.TotalConsumptionList, p.ValueAvailable = false) →
        (setPeriodicData now (.ok pd) g).1.meterReading = g.meterReading
          ∧ (setPeriodicData now (.ok pd) g).1.meterReadingDelay = g.meterReadingDelay) := by
  have hdrop : (dropUnavailable pd).TotalConsumptionList.foldl (consumptionStep now) g
      = pd.TotalConsumptionList.foldl (consumptionStep now) g :=
    foldl_filter_skip (consumptionStep now) (fun p => p.ValueAvailable)
      (fun s x h => consumptionStep_skip now s x h) pd.TotalConsumptionList g
  refine ⟨?_, ?_, ?_⟩
  · rw [(setPeriodicData_meter now pd g).1, (setPeriodicData_meter now _ g).1, hdrop]
  · rw [(setPeriodicData_meter now pd g).2, (setPeriodicData_meter now _ g).2, hdrop]
  · intro hall
    have hnil : pd.TotalConsumptionList.filter (fun p => p.ValueAvailable) = [] := by
      rw [List.filter_eq_nil_iff]
      intro p hp
      simp [hall p hp]
    have hloop : pd.TotalConsumptionList.foldl (consumptionStep now) g = g := by
      rw [← hdrop]
      simp only [dropUnavailable, hnil, List.foldl_nil]
    rw [(setPeriodicData_meter now pd g).1, (setPeriodicData_meter now pd g).2, hloop]
    exact ⟨rfl, rfl⟩

/-- C3 at a response whose two records, one per utility, have no value available. -/
theorem C3_unavailable_records_never_publish_witness :
    (setPeriodicData sampleNow (.ok sampleUnavailable) sampleRegistry).1.meterReading
        = sampleRegistry.meterReading
    ∧ (setPeriodicData sampleNow (.ok sampleUnavailable) sampleRegistry).1.meterReadingDelay
        = sampleRegistry.meterReadingDelay :=
  (C3_unavailable_records_never_publish sampleNow sampleRegistry sampleUnavailable).2.2
    (by decide)

/-- C5, the code at a failing input: with the clock at 3000, an electricity cost timestamp
of 1000 and a gas cost timestamp of 2000, `setPeriodicData` from the empty registry leaves
`current_cost_delay_seconds` at `electricity` equal to 1000, the delay of the gas
timestamp, and leaves its `gas` child without a sample; the delays of the two timestamps
are 2000 and 1000. -/
theorem C5_cost_delay_per_utility_failing_input :
    (setPeriodicData sampleNow (.ok samplePeriodic) metrics.Registry.empty).1.costDelay
        metrics.Electricity = some 1000
    ∧ (setPeriodicData sampleNow (.ok samplePeriodic) metrics.Registry.empty).1.costDelay
        metrics.Gas = none
    ∧ elapsedSeconds sampleNow samplePeriodic.CurrentCostsElecTimestamp = 2000
    ∧ elapsedSeconds sampleNow samplePeriodic.CurrentCostsGasTimestamp = 1000 := by
  have hs : time.Since sampleNow (time.Unix samplePeriodic.CurrentCostsGasTimestamp)
      = 1000000000000 := by decide
  refine ⟨?_, ?_, ?_, ?_⟩
  · have hw : time.Duration.Seconds 1000000000000 = 1000 := by
      have h := Seconds_whole 1000 (by decide)
      simpa using h
    rw [setPeriodicData_costDelay, gaugeSet_same, hs, hw]
  · rw [setPeriodicData_costDelay, gaugeSet_other _ _ _ _ Gas_ne_Electricity]
    rfl
  · simp only [elapsedSeconds, sampleNow, samplePeriodic, time.unixToInternal]
    norm_num
  · simp only [elapsedSeconds, sampleNow, samplePeriodic, time.unixToInternal]
    norm_num

/-- C10, the claim as stated fails, in two ways.  With the clock at 1800000000 and a gas
cost timestamp of -9900000000 the elapsed time does not fit a `Duration`, and after
`setPeriodicData` the gauge `current_cost_delay_seconds` at `electricity` holds the
saturated 4835703278458517/524288 instead of 11700000000.  With the clock at 1800000000.1
and a gas cost timestamp of 1799999000 the elapsed time of 1000.1 s is not a `float64`,
and the gauge holds 8796972631510221/8796093022208 instead of 10001/10. -/
theorem C10_gas_delay_not_exact_counterexample :
    ((setPeriodicData ⟨time.unixToInternal + 1800000000, 0⟩ (.ok sampleAncientCosts)
          metrics.Registry.empty).1.costDelay metrics.Electricity
        = some (4835703278458517 / 524288)
      ∧ (setPeriodicData ⟨time.unixToInternal + 1800000000, 0⟩ (.ok sampleAncientCosts)
          metrics.Registry.empty).1.costDelay metrics.Electricity
        ≠ some (elapsedSeconds ⟨time.unixToInternal + 1800000000, 0⟩
            sampleAncientCosts.CurrentCostsGasTimestamp))
    ∧ ((setPeriodicData ⟨time.unixToInternal + 1800000000, 100000000⟩ (.ok sampleRecentCosts)
          metrics.Registry.empty).1.costDelay metrics.Electricity
        = some (8796972631510221 / 8796093022208)
      ∧ (setPeriodicData ⟨time.unixToInternal + 1800000000, 100000000⟩
          (.ok sampleRecentCosts) metrics.Registry.empty).1.costDelay metrics.Electricity
        ≠ some (elapsedSeconds ⟨time.unixToInternal + 1800000000, 100000000⟩
            sampleRecentCosts.CurrentCostsGasTimestamp)) := by
  have hs : time.Since ⟨time.unixToInternal + 1800000000, 0⟩
      (time.Unix sampleAncientCosts.CurrentCostsGasTimestamp) = 9223372036854775807 := by
    decide
  have h2 : elapsedSeconds ⟨time.unixToInternal + 1800000000, 0⟩
      sampleAncientCosts.CurrentCostsGasTimestamp = 11700000000 := by
    simp only [elapsedSeconds, sampleAncientCosts, time.unixToInternal]
    norm_num
  have ht : time.Since ⟨time.unixToInternal + 1800000000, 100000000⟩
      (time.Unix sampleRecentCosts.CurrentCostsGasTimestamp) = 1000100000000 := by
    decide
  have h4 : elapsedSeconds ⟨time.unixToInternal + 1800000000, 100000000⟩
      sampleRecentCosts.CurrentCostsGasTimestamp = 10001 / 10 := by
    simp only [elapsedSeconds, sampleRecentCosts, time.unixToInternal]
    norm_num
  refine ⟨⟨?_, ?_⟩, ⟨?_, ?_⟩⟩
  · rw [setPeriodicData_costDelay, gaugeSet_same, hs, Seconds_maxDuration]
  · rw [setPeriodicData_costDelay, gaugeSet_same, hs, Seconds_maxDuration, h2]
    norm_num
  · rw [setPeriodicData_costDelay, gaugeSet_same, ht, Seconds_1000_1]
  · rw [setPeriodicData_costDelay, gaugeSet_same, ht, Seconds_1000_1, h4]
    norm_num

/-- C10, amended: for every registry, clock reading and fetched periodic response,
`setPeriodicData` never writes `current_cost_delay_seconds` at `gas` and leaves its
`electricity` child holding the delay that `time.Since` and `Duration.Seconds` give for
the gas cost timestamp, whatever the electricity cost timestamp is; that delay is exactly
`now` minus the gas cost timestamp in seconds whenever the clock is at a whole second,
`time.Unix` represents the timestamp without overflow and the difference fits a
`Duration`. -/
theorem C10_gas_delay_under_electricity {F : Type} (now : time.Time)
    (g : metrics.Registry F) (pd : PeriodicData F) :
    (setPeriodicData now (.ok pd) g).1.costDelay metrics.Gas = g.costDelay metrics.Gas
    ∧ (setPeriodicData now (.ok pd) g).1.costDelay
        = metrics.gaugeSet g.costDelay metrics.Electricity
            (time.Duration.Seconds (time.Since now (time.Unix pd.CurrentCostsGasTimestamp)))
    ∧ (now.nsec = 0 →
      -(2 ^ 63) ≤ pd.CurrentCostsGasTimestamp
        ∧ pd.CurrentCostsGasTimestamp + time.unixToInternal < 2 ^ 63 →
      time.minDuration
          ≤ (now.sec - time.unixToInternal - pd.CurrentCostsGasTimestamp) * time.Second
            + now.nsec
        ∧ (now.sec - time.unixToInternal - pd.CurrentCostsGasTimestamp) * time.Second
            + now.nsec ≤ time.maxDuration →
      (setPeriodicData now (.ok pd) g).1.costDelay metrics.Electricity
        = some (elapsedSeconds now pd.CurrentCostsGasTimestamp)) := by
  refine ⟨?_, setPeriodicData_costDelay now pd g, ?_⟩
  · rw [setPeriodicData_costDelay, gaugeSet_other _ _ _ _ Gas_ne_Electricity]
  · intro hn ht hd
    rw [setPeriodicData_costDelay, gaugeSet_same, staleness_of_range now _ hn ht hd]

/-- C10, amended, at the sample response: the gas child keeps the sample it had and the
electricity child holds the delay of the gas timestamp. -/
theorem C10_gas_delay_under_electricity_witness :
    (setPeriodicData sampleNow (.ok samplePeriodic) sampleRegistry).1.costDelay metrics.Gas
        = sampleRegistry.costDelay metrics.Gas
    ∧ (setPeriodicData sampleNow (.ok samplePeriodic) sampleRegistry).1.costDelay
        metrics.Electricity
        = some (elapsedSeconds sampleNow samplePeriodic.CurrentCostsGasTimestamp) :=
  have h := C10_gas_delay_under_electricity sampleNow sampleRegistry samplePeriodic
  ⟨h.1, h.2.2 (by decide) (by decide) (by decide)⟩

/-- C6: a fetch error in one pass neither blocks the other pass nor resets any gauge.  The
registry after one iteration of the loop of `pollReadings` is the periodic projection
applied after the live projection, a failed fetch projecting to the identity: when the
live fetch fails the periodic pass still runs, when the periodic fetch fails the live
pass has still run, and when both fail the registry is as before. -/
theorem C6_fetch_error_isolated {F : Type} (s : PollState F) (now : time.Time) :
    (∀ live periodicData,
        (pollIteration s ⟨now, live, periodicData⟩).registry
          = periodicProjection now periodicData (liveProjection live s.registry))
    ∧ (∀ e periodicData,
        (pollIteration s ⟨now, .error e, periodicData⟩).registry
          = (setPeriodicData now periodicData s.registry).1)
    ∧ (∀ e live,
        (pollIteration s ⟨now, live, .error e⟩).registry
          = (setLiveReadings live s.registry).1)
    ∧ (∀ e1 e2, (pollIteration s ⟨now, .error e1, .error e2⟩).registry = s.registry) := by
  refine ⟨?_, ?_, ?_, ?_⟩
  · intro live periodicData
    cases live <;> cases periodicData <;> rfl
  · intro e periodicData
    rfl
  · intro e live
    rfl
  · intro e1 e2
    rfl

/-- C7: repeated publishes to the same key overwrite rather than accumulate.  `Cost` with
value `a` and then with value `b` on the same utility and duration leaves the registry as
`Cost` with `b` alone does, likewise `LiveUsage` on the same utility, and publishing a
value twice is publishing it once; cost 100 then 150 for electricity and day leaves 150. -/
theorem C7_publish_overwrites {F : Type} (g : metrics.Registry F) (u : metrics.Utility)
    (d : metrics.Duration) (a b : F) :
    metrics.Cost u d b (metrics.Cost u d a g) = metrics.Cost u d b g
    ∧ metrics.LiveUsage u b (metrics.LiveUsage u a g) = metrics.LiveUsage u b g
    ∧ metrics.Cost u d a (metrics.Cost u d a g) = metrics.Cost u d a g
    ∧ metrics.LiveUsage u a (metrics.LiveUsage u a g) = metrics.LiveUsage u a g
    ∧ (∀ h : metrics.Registry Int,
        (metrics.Cost metrics.Electricity metrics.Day 150
          (metrics.Cost metrics.Electricity metrics.Day 100 h)).cost
            (metrics.Electricity, metrics.Day) = some 150) := by
  refine ⟨?_, ?_, ?_, ?_, ?_⟩
  · simp only [metrics.Cost, gaugeSet_overwrite]
  · simp only [metrics.LiveUsage, gaugeSet_overwrite]
  · simp only [metrics.Cost, gaugeSet_overwrite]
  · simp only [metrics.LiveUsage, gaugeSet_overwrite]
  · intro h
    simp only [metrics.Cost, gaugeSet_same]

/-- C8: device discovery must resolve to exactly one device.  When configuration parsing,
authentication and discovery succeed, `main` starts the poller and registers and serves
`/metrics` if and only if the discovered list has exactly one element; with any other
number it only logs the error and returns, and it never indexes an empty list. -/
theorem C8_exactly_one_device (cfg : config)
    (GetAccessToken : String → String → Except String String)
    (GetDeviceData : String → Except String DeviceData) (accessToken : String)
    (deviceData : DeviceData) (hauth : GetAccessToken cfg.User cfg.Pass = .ok accessToken)
    (hdev : GetDeviceData accessToken = .ok deviceData) :
    (((∃ id, Effect.goPollReadings accessToken id ∈ main (.ok cfg) GetAccessToken GetDeviceData)
        ∧ Effect.httpHandle "/metrics" ∈ main (.ok cfg) GetAccessToken GetDeviceData
        ∧ Effect.listenAndServe ":9090" ∈ main (.ok cfg) GetAccessToken GetDeviceData)
      ↔ deviceData.SystemDetails.length = 1)
    ∧ (∀ d, deviceData.SystemDetails = [d] →
        main (.ok cfg) GetAccessToken GetDeviceData
          = [.goPollReadings accessToken d.SystemID, .httpHandle "/metrics",
              .listenAndServe ":9090"])
    ∧ (deviceData.SystemDetails.length ≠ 1 →
        main (.ok cfg) GetAccessToken GetDeviceData
          = [.logError ("expected 1 device got "
              ++ toString deviceData.SystemDetails.length)])
    ∧ Effect.indexOutOfRange ∉ main (.ok cfg) GetAccessToken GetDeviceData := by
  have hone : ∀ d, deviceData.SystemDetails = [d] →
      main (.ok cfg) GetAccessToken GetDeviceData
        = [.goPollReadings accessToken d.SystemID, .httpHandle "/metrics",
            .listenAndServe ":9090"] := by
    intro d hd
    simp [main, hauth, hdev, hd]
  have hother : deviceData.SystemDetails.length ≠ 1 →
      main (.ok cfg) GetAccessToken GetDeviceData
        = [.logError ("expected 1 device got "
            ++ toString deviceData.SystemDetails.length)] := by
    intro hlen
    simp [main, hauth, hdev, hlen]
  by_cases hlen : deviceData.SystemDetails.length = 1
  · obtain ⟨d, hd⟩ := List.length_eq_one.mp hlen
    refine ⟨?_, hone, hother, ?_⟩
    · rw [hone d hd]
      simp [hlen]
    · rw [hone d hd]
      simp
  · refine ⟨?_, hone, hother, ?_⟩
    · rw [hother hlen]
      simp [hlen]
    · rw [hother hlen]
      simp

/-- C8 at a discovery of two devices: `main` logs the count and does nothing else. -/
theorem C8_exactly_one_device_witness :
    main (.ok ⟨"user", "pass", 10 * time.Second⟩) (fun _ _ => .ok "token")
        (fun _ => .ok ⟨[⟨"a"⟩, ⟨"b"⟩]⟩)
      = [.logError ("expected 1 device got " ++ toString 2)] :=
  (C8_exactly_one_device ⟨"user", "pass", 10 * time.Second⟩ (fun _ _ => .ok "token")
    (fun _ => .ok ⟨[⟨"a"⟩, ⟨"b"⟩]⟩) "token" ⟨[⟨"a"⟩, ⟨"b"⟩]⟩ rfl rfl).2.2.1 (by decide)

/-- C9, the code at a failing input: with `PollInterval` configured as 30 seconds `main`
starts `pollReadings` without passing it, and the ticker of `pollReadings` has the period
of its own constant, 10 seconds, as it has for every argument. -/
theorem C9_poll_interval_failing_input :
    main (.ok ⟨"user", "pass", 30 * time.Second⟩) (fun _ _ => .ok "token")
        (fun _ => .ok ⟨[⟨"system"⟩]⟩)
      = [.goPollReadings "token" "system", .httpHandle "/metrics", .listenAndServe ":9090"]
    ∧ (pollReadings "token" "system" ([] : List (Cycle Int)) metrics.Registry.empty).tick
      = 10 * time.Second
    ∧ (pollReadings "token" "system" ([] : List (Cycle Int)) metrics.Registry.empty).tick
      ≠ (⟨"user", "pass", 30 * time.Second⟩ : config).PollInterval
    ∧ (∀ (accessToken geoSystemID : String) (cycles : List (Cycle Int))
        (r : metrics.Registry Int),
        (pollReadings accessToken geoSystemID cycles r).tick = 10 * time.Second)
    ∧ pollInterval = defaultPollInterval := by
  refine ⟨rfl, rfl, by decide, ?_, rfl⟩
  intro accessToken geoSystemID cycles r
  rfl

end Prometer
